import Mathlib

/-!
Shallow embedding of the reconciliation core of the CAMEL TV access
management service (src/app/logic.py, src/app/storage.py, src/app/sync.py).

Modelling conventions:
* `datetime` values are UTC instants modelled as `Int` seconds;
  `timedelta(days = d)` is `d * 86400`.  `astimezone(timezone.utc)`
  preserves the instant, so it is the identity on this representation.
* Python dicts keyed by strings are association lists with the helpers
  `dictGet` / `dictSet` / `dictPop` below (insertion order preserved,
  assignment replaces in place, exactly like `dict`).
* Optional Python values are `Option`; the Python truthiness of strings
  (empty string is falsy) is captured by `pyOrS` / `asTruthy`.
* A Python `datetime` object is always truthy, so `if existing_expiry`
  and `if not action.expires_at` reduce to `Option.isSome` tests.
-/

namespace CamelTV

/-- Python dict lookup (`d.get(k)`). -/
def dictGet {α : Type} : List (String × α) → String → Option α
  | [], _ => none
  | (k, v) :: rest, key => if k = key then some v else dictGet rest key

/-- Python dict assignment (`d[k] = v`): replace in place, else append. -/
def dictSet {α : Type} : List (String × α) → String → α → List (String × α)
  | [], key, v => [(key, v)]
  | (k, w) :: rest, key, v =>
      if k = key then (key, v) :: rest else (k, w) :: dictSet rest key v

/-- Python `d.pop(k, None)`: drop the binding for `k` if present. -/
def dictPop {α : Type} : List (String × α) → String → List (String × α)
  | [], _ => []
  | (k, w) :: rest, key => if k = key then rest else (k, w) :: dictPop rest key

/-- Python `a or b` on optional strings: empty string and `None` are falsy. -/
def pyOrS (a b : Option String) : Option String :=
  match a with
  | some s => if s = "" then b else some s
  | none => b

/-- Normalize an optional string to `none` when it is Python-falsy. -/
def asTruthy (a : Option String) : Option String :=
  match a with
  | some s => if s = "" then none else some s
  | none => none

/-- Python `str.lower()` (character-list model, kernel-computable). -/
def pyLower (s : String) : String :=
  String.mk (s.data.map Char.toLower)

/-- Python `str.strip()` (character-list model, kernel-computable). -/
def pyStrip (s : String) : String :=
  String.mk
    (((s.data.dropWhile Char.isWhitespace).reverse.dropWhile
      Char.isWhitespace).reverse)

/-- storage.GrantHistoryEntry. -/
structure GrantHistoryEntry where
  transaction_id : String
  action : String
  expires_at : Int
  processed_at : Int
deriving DecidableEq, Repr

/-- sync._grant_payload output: the dict sent to the TradingView grant API.
`expiry` is serialized as `expiry.date().isoformat()`; the calendar day of a
UTC timestamp is its floor-division by 86400. -/
structure GrantPayload where
  scriptId : String
  username : String
  email : String
  expiry_day : Int
  subscription_type : String
  wp_username : String
  remarks : String
deriving DecidableEq, Repr

/-- storage.RetryEntry. -/
structure RetryEntry where
  transaction_id : String
  payload : GrantPayload
  error_message : String
  attempts : Int
  next_attempt_at : Int
deriving DecidableEq, Repr

/-- storage.ManualReviewEntry. -/
structure ManualReviewEntry where
  transaction_id : String
  reason : String
  recorded_at : Int
deriving DecidableEq, Repr

/-- storage.AccessRecord: all fields of the pydantic model; `expiry`,
`last_transaction_id` and `last_transaction_at` are required fields. -/
structure AccessRecord where
  wp_user_id : String
  username : String
  wp_username : Option String
  email : String
  product_id : String
  script_id : String
  expiry : Int
  last_transaction_id : String
  last_transaction_at : Int
  status : String
  history : List GrantHistoryEntry
deriving DecidableEq, Repr

/-- storage.MasterData: the per-script ledger. -/
structure MasterData where
  script_id : String
  last_synced_at : Option Int
  last_processed_at : Option Int
  processed_transactions : List String
  users : List (String × AccessRecord)
  retry_queue : List RetryEntry
  manual_review : List ManualReviewEntry
deriving DecidableEq, Repr

/-- logic.NormalizedTransaction (the `raw` payload dict is carried through
the Python model unread by the engine and orchestrator, so it is omitted). -/
structure NormalizedTransaction where
  transaction_id : String
  product_id : String
  script_id : String
  username : String
  email : String
  wp_username : String
  wp_user_id : String
  display_name : Option String
  created_at : Int
  computed_expiry : Int
  duration_days : Int
  subscription_type : Option String
  stacking_allowed : Bool
  remarks : Option String
deriving DecidableEq, Repr

/-- logic.Action. -/
structure Action where
  type : String
  expires_at : Option Int
  reason : Option String
deriving DecidableEq, Repr

/-- config.ProductConfig (pydantic enforces `duration_days >= 1`). -/
structure ProductConfig where
  script_id : String
  duration_days : Int
  subscription_type : Option String
  stacking_allowed : Bool
deriving DecidableEq, Repr

/-- The slice of config.Settings the reconciliation core reads:
`wordpress.status_filter`, the `products` mapping, `scheduler.dry_run`,
and whether `email` is configured (`settings.email is not None`). -/
structure Settings where
  status_filter : List String
  products : List (String × ProductConfig)
  dry_run : Bool
  email_configured : Bool
deriving DecidableEq, Repr

/-- logic.compute_expiry: the source expiry, when present, is returned
unchanged (`astimezone` keeps the instant); otherwise
`created_at + timedelta(days = duration_days)`. -/
def compute_expiry (created_at : Int) (duration_days : Int)
    (source_expiry : Option Int) : Int :=
  match source_expiry with
  | some e => e
  | none => created_at + duration_days * 86400

/-- logic.derive_action: the pure decision engine. -/
def derive_action (transaction : NormalizedTransaction)
    (existing_record : Option AccessRecord) : Action :=
  match existing_record with
  | none =>
      { type := "grant_new", expires_at := some transaction.computed_expiry,
        reason := none }
  | some record =>
      if transaction.transaction_id = record.last_transaction_id then
        { type := "skip", expires_at := some record.expiry,
          reason := some "duplicate_transaction" }
      else
        let existing_expiry := record.expiry
        if transaction.stacking_allowed then
          -- `if existing_expiry and existing_expiry > transaction.created_at`:
          -- a datetime is always truthy, so only the comparison remains.
          if existing_expiry > transaction.created_at then
            { type := "stack_existing",
              expires_at :=
                some (existing_expiry + transaction.duration_days * 86400),
              reason := none }
          else
            { type := "stack_existing",
              expires_at := some transaction.computed_expiry, reason := none }
        else
          { type := "manual_review",
            expires_at := some existing_expiry,
            reason := some "stacking_disabled_existing_access" }

/-- The AccessRecord built by run_sync after a successful grant call
(src/app/sync.py lines 361-373). -/
def grant_record (txn : NormalizedTransaction) (effective_username : String)
    (expiry : Int)
    (history : List GrantHistoryEntry) : AccessRecord :=
  { wp_user_id := txn.wp_user_id
    username := effective_username
    wp_username := some txn.wp_username
    email := txn.email
    product_id := txn.product_id
    script_id := txn.script_id
    expiry := expiry
    last_transaction_id := txn.transaction_id
    last_transaction_at := txn.created_at
    status := "active"
    history := history }

/-- The nested `user` object of a raw WordPress transaction
(logic.WordPressUser). -/
structure RawUser where
  id : Option String
  email : Option String
  username : Option String
  display_name : Option String
deriving DecidableEq, Repr

/-- A raw transaction dict after the datetime-parsing layer.  String fields
mirror the keys read by logic.normalize_transactions; the `raw.get(...)`
fallbacks in the Python code re-read the very same dict keys that pydantic
validated into the model, so each key is modelled once.  `created_at_str`
is `none` when the required key is missing (pydantic validation fails);
`created_at_parsed` is `none` when the string does not parse
(`_parse_datetime` raises).  `expires_at` is the value of
`WordPressTransaction.expires_at_dt`: `none` covers both an absent field
and an unparseable one.  `user_meta` is `none` when the dict is absent or
empty (both Python-falsy). -/
structure RawRecord where
  transaction_id : Option String
  product_id : Option String
  user : Option RawUser
  user_id : Option String
  user_email : Option String
  user_login : Option String
  display_name : Option String
  user_meta : Option (Option String × Option String)
  status : Option String
  txn_status : Option String
  created_at_str : Option String
  created_at_parsed : Option Int
  expires_at : Option Int
  remarks : Option String
  note : Option String
deriving DecidableEq, Repr

/-- config.Settings.product_for. -/
def product_for (settings : Settings) (product_id : String) :
    Option ProductConfig :=
  dictGet settings.products product_id

/-- One iteration of the loop in logic.normalize_transactions: `none` is the
Python `continue` (record dropped). -/
def normalize_one (settings : Settings) (raw : RawRecord) :
    Option NormalizedTransaction :=
  match raw.transaction_id, raw.product_id, raw.created_at_str with
  | some tid, some pid, some _ =>
      let status_value :=
        pyStrip ((pyOrS raw.status raw.txn_status).getD "")
      let allowed_statuses := settings.status_filter.map pyLower
      if allowed_statuses ≠ [] ∧ pyLower status_value ∉ allowed_statuses then
        none
      else
        match product_for settings pid with
        | none => none
        | some product =>
            match raw.created_at_parsed with
            | none => none
            | some created_at =>
                let computed_expiry :=
                  compute_expiry created_at product.duration_days
                    raw.expires_at
                let username :=
                  asTruthy (pyOrS (raw.user.bind (fun u => u.username))
                    raw.user_login)
                match username with
                | none => none
                | some username =>
                    let email :=
                      asTruthy (pyOrS (raw.user.bind (fun u => u.email))
                        raw.user_email)
                    match email with
                    | none => none
                    | some email =>
                        let wp_user_id :=
                          asTruthy (pyOrS (raw.user.bind (fun u => u.id))
                            raw.user_id)
                        match wp_user_id with
                        | none => none
                        | some wp_user_id =>
                            let display_name0 :=
                              asTruthy
                                (pyOrS
                                  (raw.user.bind (fun u => u.display_name))
                                  raw.display_name)
                            let display_name :=
                              match display_name0, raw.user_meta with
                              | none, some (first, last) =>
                                  let parts :=
                                    List.filterMap asTruthy [first, last]
                                  if parts = [] then none
                                  else some (String.intercalate " " parts)
                              | d, _ => d
                            let remarks :=
                              match asTruthy (pyOrS raw.remarks raw.note) with
                              | some r => some r
                              | none =>
                                  some (if pyLower status_value = "complete"
                                    then "paid"
                                    else if status_value = "" then "paid"
                                    else status_value)
                            some
                              { transaction_id := tid
                                product_id := pid
                                script_id := product.script_id
                                username := username
                                email := email
                                wp_username := username
                                wp_user_id := wp_user_id
                                display_name := display_name
                                created_at := created_at
                                computed_expiry := computed_expiry
                                duration_days := product.duration_days
                                subscription_type :=
                                  product.subscription_type
                                stacking_allowed :=
                                  product.stacking_allowed
                                remarks := remarks }
  | _, _, _ => none

/-- logic.normalize_transactions. -/
def normalize_transactions (raw_transactions : List RawRecord)
    (settings : Settings) : List NormalizedTransaction :=
  raw_transactions.filterMap (normalize_one settings)

/-- storage.MasterData.register_processed. -/
def register_processed (m : MasterData) (transaction_id : String) :
    MasterData :=
  if transaction_id ∈ m.processed_transactions then m
  else
    let appended := m.processed_transactions ++ [transaction_id]
    { m with processed_transactions :=
        if 500 < appended.length then appended.drop (appended.length - 500)
        else appended }

/-- storage.MasterData.record_user. -/
def record_user (m : MasterData) (username : String)
    (record : AccessRecord) : MasterData :=
  let record :=
    match record.wp_username with
    | none => { record with wp_username := some record.username }
    | some _ => record
  { m with users := dictSet m.users username record }

/-- storage.MasterData.record_retry. -/
def record_retry (m : MasterData) (entry : RetryEntry) : MasterData :=
  { m with retry_queue := m.retry_queue ++ [entry] }

/-- storage.MasterData.record_manual_review. -/
def record_manual_review (m : MasterData) (entry : ManualReviewEntry) :
    MasterData :=
  { m with manual_review := m.manual_review ++ [entry] }

/-- An empty ledger, as synthesized by storage.load_master when no file
exists (`MasterData(script_id=script_id)` with pydantic defaults). -/
def emptyMaster (script_id : String) : MasterData :=
  { script_id := script_id
    last_synced_at := none
    last_processed_at := none
    processed_transactions := []
    users := []
    retry_queue := []
    manual_review := [] }

/-- Result of io.TradingViewClient.validate_username (the
`allUserSuggestions` list is only rendered into the notification email, so
it is not modelled). -/
structure ValidationResult where
  validUser : Bool
  verifiedUserName : Option String
deriving DecidableEq, Repr

/-- An external call issued by run_sync (the side effects that dry-run is
supposed to suppress). -/
inductive ExternalCall where
  | validateCall (username : String)
  | grantCall (payload : GrantPayload)
  | emailCall (recipient : String)
deriving DecidableEq, Repr

/-- The counters of the run summary dict built by run_sync (the
`transactions_fetched` / `transactions_considered` / `since` entries are
set once before the loop and are not claimed about). -/
structure Summary where
  processed : Nat
  stacked : Nat
  skipped : Nat
  manual_review : Nat
  failed : Nat
  dry_run_skipped : Nat
  dry_run_calls : Nat
  validation_failed : Nat
deriving DecidableEq, Repr

/-- The all-zero summary. -/
def summary0 : Summary :=
  { processed := 0, stacked := 0, skipped := 0, manual_review := 0,
    failed := 0, dry_run_skipped := 0, dry_run_calls := 0,
    validation_failed := 0 }

/-- The external world of one run_sync pass.  `validate` and `grant` give
the outcome of the TradingView calls that the loop would issue while
handling the i-th normalized transaction (`Except.error` is an ApiError);
`now` is the value `_utcnow()` returns there; `disk` is the persisted
ledger store read by storage.load_master. -/
structure SyncEnv where
  validate : Nat → Except String ValidationResult
  grant : Nat → Except String Unit
  now : Nat → Int
  disk : String → Option MasterData

/-- storage.load_master: the persisted ledger, or a fresh empty one.
(sync.load_or_bootstrap adds nothing: the TradingView bootstrap path is
commented out in the source.) -/
def load_master (env : SyncEnv) (script_id : String) : MasterData :=
  match env.disk script_id with
  | some m => m
  | none => emptyMaster script_id

/-- sync.run_sync's get_master: consult the cache, else load and cache. -/
def get_master (env : SyncEnv) (cache : List (String × MasterData))
    (script_id : String) : MasterData × List (String × MasterData) :=
  match dictGet cache script_id with
  | some m => (m, cache)
  | none =>
      let m := load_master env script_id
      (m, dictSet cache script_id m)

/-- The `latest_seen` update at the top of the loop body
(src/app/sync.py lines 224-226). -/
def bump_latest (latest : List (String × Int)) (script_id : String)
    (created_at : Int) : List (String × Int) :=
  match dictGet latest script_id with
  | none => dictSet latest script_id created_at
  | some cur =>
      if created_at > cur then dictSet latest script_id created_at
      else latest

/-- sync._grant_payload.  `expiry.date().isoformat()` sends the calendar
day of the UTC instant, i.e. its floor-division by 86400. -/
def grant_payload (txn : NormalizedTransaction) (expiry : Int)
    (username : String) : GrantPayload :=
  { scriptId := txn.script_id
    username := username
    email := txn.email
    expiry_day := Int.fdiv expiry 86400
    subscription_type := (pyOrS txn.subscription_type none).getD ""
    wp_username := txn.wp_username
    remarks := (pyOrS txn.remarks none).getD "paid" }

/-- The in-memory state run_sync threads through its transaction loop:
the ledger cache, the per-script `latest_seen` maxima, the summary
counters, and the trace of external calls issued so far. -/
structure SyncState where
  master_cache : List (String × MasterData)
  latest_seen : List (String × Int)
  summary : Summary
  calls : List ExternalCall
deriving Repr

/-- The body of run_sync's per-transaction loop after the ledger has been
resolved and `latest_seen` bumped (src/app/sync.py lines 228-390).
`master` is the cached ledger for `txn.script_id`; every state update the
Python code performs through the shared `master` reference is written back
into the cache here. -/
def processBody (settings : Settings) (env : SyncEnv) (st : SyncState)
    (master : MasterData) (i : Nat) (txn : NormalizedTransaction) :
    SyncState :=
  if txn.transaction_id ∈ master.processed_transactions then
    { st with summary := { st.summary with skipped := st.summary.skipped + 1 } }
  else
    let existing := dictGet master.users txn.username
    let action := derive_action txn existing
    if action.type = "skip" then
      let master := register_processed master txn.transaction_id
      { st with
        summary := { st.summary with skipped := st.summary.skipped + 1 }
        master_cache := dictSet st.master_cache txn.script_id master }
    else if action.type = "manual_review" then
      let master := record_manual_review master
        { transaction_id := txn.transaction_id
          reason := action.reason.getD "manual_review_required"
          recorded_at := env.now i }
      let master := register_processed master txn.transaction_id
      { st with
        summary :=
          { st.summary with manual_review := st.summary.manual_review + 1 }
        master_cache := dictSet st.master_cache txn.script_id master }
    else
      match action.expires_at with
      | none =>
          -- `if not action.expires_at` (a datetime is always truthy)
          { st with
            summary := { st.summary with failed := st.summary.failed + 1 } }
      | some expiry =>
          let st := { st with
            calls := st.calls ++ [ExternalCall.validateCall txn.username] }
          match env.validate i with
          | Except.error _ =>
              { st with
                summary := { st.summary with
                  validation_failed := st.summary.validation_failed + 1 } }
          | Except.ok vres =>
              if vres.validUser = false then
                let alreadyReviewed := master.manual_review.any
                  (fun entry => entry.transaction_id = txn.transaction_id)
                let st :=
                  if alreadyReviewed then st
                  else if settings.email_configured then
                    { st with
                      calls := st.calls ++ [ExternalCall.emailCall txn.email] }
                  else st
                let master :=
                  if alreadyReviewed then master
                  else record_manual_review master
                    { transaction_id := txn.transaction_id
                      reason := "invalid_username"
                      recorded_at := env.now i }
                let master := register_processed master txn.transaction_id
                { st with
                  summary := { st.summary with
                    manual_review := st.summary.manual_review + 1 }
                  master_cache :=
                    dictSet st.master_cache txn.script_id master }
              else
                let effective_username :=
                  (pyOrS vres.verifiedUserName (some txn.username)).getD
                    txn.username
                let existing :=
                  if effective_username ≠ txn.username then
                    match dictGet master.users effective_username with
                    | some found => some found
                    | none => existing
                  else existing
                let payload := grant_payload txn expiry effective_username
                if settings.dry_run then
                  { st with
                    summary := { st.summary with
                      dry_run_skipped := st.summary.dry_run_skipped + 1 } }
                else
                  let st := { st with
                    calls := st.calls ++ [ExternalCall.grantCall payload] }
                  match env.grant i with
                  | Except.error msg =>
                      let master := record_retry master
                        { transaction_id := txn.transaction_id
                          payload := payload
                          error_message := msg
                          attempts := 0
                          next_attempt_at := env.now i }
                      { st with
                        summary := { st.summary with
                          failed := st.summary.failed + 1 }
                        master_cache :=
                          dictSet st.master_cache txn.script_id master }
                  | Except.ok _ =>
                      let processed_at := env.now i
                      let history :=
                        (match existing with
                         | some e => e.history
                         | none => []) ++
                        [{ transaction_id := txn.transaction_id
                           action := action.type
                           expires_at := expiry
                           processed_at := processed_at }]
                      let record :=
                        grant_record txn effective_username expiry history
                      let master :=
                        if effective_username ≠ txn.username then
                          { master with
                            users := dictPop master.users txn.username }
                        else master
                      let master :=
                        record_user master effective_username record
                      let master :=
                        register_processed master txn.transaction_id
                      let master :=
                        { master with last_synced_at := some processed_at }
                      let summary :=
                        if action.type = "grant_new" then
                          { st.summary with
                            processed := st.summary.processed + 1 }
                        else
                          { st.summary with
                            stacked := st.summary.stacked + 1 }
                      { st with
                        summary := summary
                        master_cache :=
                          dictSet st.master_cache txn.script_id master }

/-- One iteration of run_sync's transaction loop: resolve the ledger, bump
`latest_seen`, then run the body. -/
def processTxn (settings : Settings) (env : SyncEnv) (st : SyncState)
    (i : Nat) (txn : NormalizedTransaction) : SyncState :=
  let loaded := get_master env st.master_cache txn.script_id
  let st := { st with
    master_cache := loaded.2
    latest_seen := bump_latest st.latest_seen txn.script_id txn.created_at }
  processBody settings env st loaded.1 i txn

/-- The post-loop watermark update for one ledger (src/app/sync.py lines
393-397): raise `last_processed_at` to the per-script maximum `created_at`
seen, and only ever raise it.  (`if candidate and ...`: a datetime is
always truthy, so absence is the only falsy case.) -/
def wm_update (latest : List (String × Int)) (script_id : String)
    (m : MasterData) : MasterData :=
  match dictGet latest script_id with
  | none => m
  | some candidate =>
      match m.last_processed_at with
      | none => { m with last_processed_at := some candidate }
      | some lp =>
          if candidate > lp then
            { m with last_processed_at := some candidate }
          else m

/-- The post-loop watermark pass over every cached ledger
(src/app/sync.py lines 392-397). -/
def update_watermarks (cache : List (String × MasterData))
    (latest : List (String × Int)) : List (String × MasterData) :=
  cache.map (fun entry => (entry.1, wm_update latest entry.1 entry.2))

/-- The distinct script ids of the product catalog
(`{product.script_id for product in settings.products.values()}`). -/
def script_ids (settings : Settings) : List String :=
  (settings.products.map (fun p => p.2.script_id)).dedup

/-- The initial ledger cache: one loaded ledger per configured script id. -/
def initial_cache (settings : Settings) (env : SyncEnv) :
    List (String × MasterData) :=
  (script_ids settings).map (fun sid => (sid, load_master env sid))

/-- sync.run_sync, modelled from fetch onwards: normalize the fetched raw
transactions, fold the loop body over them in order, then apply the
watermark update.  The returned state holds the final ledger cache (the
ledgers that `save_master` would persist), the summary counters and the
trace of external calls. -/
def run_sync (settings : Settings) (env : SyncEnv)
    (raw_transactions : List RawRecord) : SyncState :=
  let normalized := normalize_transactions raw_transactions settings
  let st0 : SyncState :=
    { master_cache := initial_cache settings env
      latest_seen := []
      summary := summary0
      calls := [] }
  let stN := normalized.enum.foldl
    (fun st p => processTxn settings env st p.1 p.2) st0
  { stN with
    master_cache := update_watermarks stN.master_cache stN.latest_seen }

/-! Concrete inputs used by witnesses and counterexamples. -/

/-- A catalog entry: 30-day product on script S1, stacking allowed. -/
def productW : ProductConfig :=
  { script_id := "S1", duration_days := 30, subscription_type := none,
    stacking_allowed := true }

/-- Settings with the default status filter and one product. -/
def settingsW : Settings :=
  { status_filter := ["complete", "confirmed"],
    products := [("p1", productW)],
    dry_run := false, email_configured := true }

/-- The same settings with dry-run enabled. -/
def settingsDry : Settings :=
  { settingsW with dry_run := true }

/-- A complete raw transaction that survives normalization
(shaped like the repository's own test fixture). -/
def rawW : RawRecord :=
  { transaction_id := some "tx-1", product_id := some "p1", user := none,
    user_id := some "123", user_email := some "u@example.com",
    user_login := some "user1", display_name := some "User One",
    user_meta := none, status := none, txn_status := some "complete",
    created_at_str := some "2025-11-18 11:14:59",
    created_at_parsed := some 1000, expires_at := none,
    remarks := none, note := none }

/-- `rawW` with a source-provided expiry that lies before `created_at`. -/
def rawEarlyExpiry : RawRecord :=
  { rawW with expires_at := some 0 }

/-- The normalized form of `rawW`. -/
def txnW : NormalizedTransaction :=
  { transaction_id := "tx-1", product_id := "p1", script_id := "S1",
    username := "user1", email := "u@example.com", wp_username := "user1",
    wp_user_id := "123", display_name := some "User One",
    created_at := 1000, computed_expiry := 2593000, duration_days := 30,
    subscription_type := none, stacking_allowed := true,
    remarks := some "paid" }

/-- An existing access record for user1 under a different transaction. -/
def recW : AccessRecord :=
  { wp_user_id := "123", username := "user1", wp_username := some "user1",
    email := "u@example.com", product_id := "p1", script_id := "S1",
    expiry := 2000, last_transaction_id := "tx-0",
    last_transaction_at := 500, status := "active", history := [] }

/-- An environment where every call succeeds. -/
def envW : SyncEnv :=
  { validate := fun _ =>
      Except.ok { validUser := true, verifiedUserName := some "user1" }
    grant := fun _ => Except.ok ()
    now := fun _ => 5000
    disk := fun _ => none }

/-- An environment whose grant call fails with an ApiError. -/
def envGrantFail : SyncEnv :=
  { envW with grant := fun _ => Except.error "boom" }

/-- A loop state whose cache already holds the empty S1 ledger. -/
def stW : SyncState :=
  { master_cache := [("S1", emptyMaster "S1")], latest_seen := [],
    summary := summary0, calls := [] }

/-- 501 pairwise-distinct transaction ids. -/
def witnessIds : List String :=
  (List.range 501).map (fun n => String.mk (List.replicate n 'a'))

/-- Invariant: every cached ledger still carries the watermark it was
loaded from disk with (the transaction loop never writes
`last_processed_at`; only the post-loop pass does). -/
def cache_lp_invariant (env : SyncEnv)
    (cache : List (String × MasterData)) : Prop :=
  ∀ sid m, dictGet cache sid = some m →
    m.last_processed_at = (load_master env sid).last_processed_at

/-! Theorems. -/

/-- Helper: derive_action fills `expires_at` in every branch. -/
theorem derive_action_expires_at_isSome (txn : NormalizedTransaction)
    (rec : Option AccessRecord) :
    (derive_action txn rec).expires_at.isSome = true := by
  unfold derive_action
  rcases rec with _ | r
  · rfl
  · by_cases h1 : txn.transaction_id = r.last_transaction_id <;>
      by_cases h2 : txn.stacking_allowed <;>
      by_cases h3 : r.expiry > txn.created_at <;>
      simp [h1, h2, h3]

/-- Claim C5: with no existing record, derive_action returns grant_new with
`expires_at` equal to the transaction's computed_expiry. -/
theorem derive_action_no_record_grant_new (txn : NormalizedTransaction) :
    derive_action txn none =
      { type := "grant_new", expires_at := some txn.computed_expiry,
        reason := none } :=
  rfl

/-- Claim C1: when the transaction id equals the existing record's
last_transaction_id, derive_action returns skip with reason
duplicate_transaction; in particular this holds for the record that
run_sync stores after a successful grant for that very transaction, since
that record's last_transaction_id is the transaction's id. -/
theorem derive_action_duplicate_skip (txn : NormalizedTransaction)
    (rec : AccessRecord)
    (h : txn.transaction_id = rec.last_transaction_id) :
    derive_action txn (some rec) =
      { type := "skip", expires_at := some rec.expiry,
        reason := some "duplicate_transaction" } ∧
    ∀ (u : String) (e : Int) (hist : List GrantHistoryEntry),
      derive_action txn (some (grant_record txn u e hist)) =
        { type := "skip", expires_at := some e,
          reason := some "duplicate_transaction" } := by
  constructor
  · simp [derive_action, h]
  · intro u e hist
    simp [derive_action, grant_record]

/-- Witness for claim C1 at a concrete transaction and record. -/
theorem derive_action_duplicate_skip_witness :
    derive_action txnW (some { recW with last_transaction_id := "tx-1" }) =
      { type := "skip", expires_at := some 2000,
        reason := some "duplicate_transaction" } ∧
    derive_action txnW (some (grant_record txnW "user1" 777 [])) =
      { type := "skip", expires_at := some 777,
        reason := some "duplicate_transaction" } :=
  ⟨(derive_action_duplicate_skip txnW
      { recW with last_transaction_id := "tx-1" } rfl).1,
   (derive_action_duplicate_skip txnW
      { recW with last_transaction_id := "tx-1" } rfl).2 "user1" 777 []⟩

/-- Claim C3: for a non-duplicate transaction with stacking allowed,
derive_action returns stack_existing; the expiry is
`existing.expiry + duration_days` when the existing expiry is strictly
after `created_at`, and the transaction's computed_expiry otherwise
(equality falls into the already-expired branch). -/
theorem derive_action_stacking (txn : NormalizedTransaction)
    (rec : AccessRecord)
    (hdup : txn.transaction_id ≠ rec.last_transaction_id)
    (hstack : txn.stacking_allowed = true) :
    (txn.created_at < rec.expiry →
      derive_action txn (some rec) =
        { type := "stack_existing",
          expires_at := some (rec.expiry + txn.duration_days * 86400),
          reason := none }) ∧
    (rec.expiry ≤ txn.created_at →
      derive_action txn (some rec) =
        { type := "stack_existing",
          expires_at := some txn.computed_expiry, reason := none }) := by
  constructor <;> intro h
  · simp [derive_action, hdup, hstack, h]
  · simp [derive_action, hdup, hstack, not_lt.mpr h]

/-- Witness for claim C3: existing expiry 2000 is after created_at 1000,
so the result stacks additively; pushing created_at to 2000 (equality)
falls into the fresh-grant branch. -/
theorem derive_action_stacking_witness :
    derive_action txnW (some recW) =
      { type := "stack_existing", expires_at := some (2000 + 30 * 86400),
        reason := none } ∧
    derive_action { txnW with created_at := 2000 } (some recW) =
      { type := "stack_existing", expires_at := some txnW.computed_expiry,
        reason := none } :=
  ⟨(derive_action_stacking txnW recW (by decide) rfl).1 (by decide),
   (derive_action_stacking { txnW with created_at := 2000 } recW
      (by decide) rfl).2 (by decide)⟩

/-- Claim C4: for a non-duplicate transaction with stacking disabled and an
existing record, derive_action returns manual_review with reason
stacking_disabled_existing_access and the existing record's expiry. -/
theorem derive_action_stacking_disabled (txn : NormalizedTransaction)
    (rec : AccessRecord)
    (hdup : txn.transaction_id ≠ rec.last_transaction_id)
    (hstack : txn.stacking_allowed = false) :
    derive_action txn (some rec) =
      { type := "manual_review", expires_at := some rec.expiry,
        reason := some "stacking_disabled_existing_access" } := by
  simp [derive_action, hdup, hstack]

/-- Witness for claim C4 at a concrete transaction and record. -/
theorem derive_action_stacking_disabled_witness :
    derive_action { txnW with stacking_allowed := false } (some recW) =
      { type := "manual_review", expires_at := some 2000,
        reason := some "stacking_disabled_existing_access" } :=
  derive_action_stacking_disabled { txnW with stacking_allowed := false }
    recW (by decide) rfl

/-- Claim C10: derive_action returns a non-None expires_at in every branch
(computed_expiry and AccessRecord.expiry are required fields), so the
orchestrator's no-expiry failure branch can never fire on an
engine-produced action. -/
theorem derive_action_expiry_never_none (txn : NormalizedTransaction)
    (rec : Option AccessRecord) :
    (derive_action txn rec).expires_at ≠ none := by
  have h := derive_action_expires_at_isSome txn rec
  intro hnone
  rw [hnone] at h
  exact Bool.false_ne_true h

/-- Helper: a successful dict lookup is a member of the association list. -/
theorem dictGet_mem {α : Type} {d : List (String × α)} {k : String} {v : α}
    (h : dictGet d k = some v) : (k, v) ∈ d := by
  induction d with
  | nil => cases h
  | cons kv rest ih =>
      obtain ⟨k1, v1⟩ := kv
      by_cases hk : k1 = k
      · simp only [dictGet, if_pos hk] at h
        cases h
        subst hk
        exact List.mem_cons_self _ _
      · simp only [dictGet, if_neg hk] at h
        exact List.mem_cons_of_mem _ (ih h)

/-- Helper: a transaction that survives normalize_one got its duration from
a configured product, and its computed_expiry from compute_expiry applied
to its created_at, that duration and the raw record's source expiry. -/
theorem normalize_one_product {settings : Settings} {raw : RawRecord}
    {txn : NormalizedTransaction}
    (h : normalize_one settings raw = some txn) :
    ∃ pid product, product_for settings pid = some product ∧
      txn.duration_days = product.duration_days ∧
      txn.computed_expiry =
        compute_expiry txn.created_at product.duration_days
          raw.expires_at := by
  simp only [normalize_one] at h
  repeat' split at h
  any_goals cases h
  all_goals exact ⟨_, _, by assumption, rfl, rfl⟩

/-- Claim C2 counterexample: `rawEarlyExpiry` survives normalization and
its computed_expiry is 0, taken directly from the source expiry — it is
neither `max(source expiry, created_at + duration_days) = 2593000` nor
`≥ created_at = 1000`. -/
theorem computed_expiry_not_max_cex :
    (normalize_transactions [rawEarlyExpiry] settingsW).map
      (fun t => (t.computed_expiry, t.created_at)) = [((0 : Int), (1000 : Int))] ∧
    ¬ ((0 : Int) ≥ 1000) ∧
    (0 : Int) ≠ max ((0 : Int)) (1000 + 30 * 86400) :=
  ⟨by decide, by decide, by decide⟩

/-- Claim C2 as amended: for every raw record that survives normalization,
computed_expiry equals the source-provided expiry when one is present
(not the max with created_at + duration_days), and otherwise equals
created_at + duration_days, in which case computed_expiry > created_at
because catalog durations are at least one day. -/
theorem computed_expiry_source_passthrough
    (settings : Settings) (raw : RawRecord) (txn : NormalizedTransaction)
    (hdur : ∀ p ∈ settings.products, 1 ≤ p.2.duration_days)
    (h : normalize_one settings raw = some txn) :
    (∀ e, raw.expires_at = some e → txn.computed_expiry = e) ∧
    (raw.expires_at = none →
      txn.computed_expiry = txn.created_at + txn.duration_days * 86400 ∧
      txn.created_at < txn.computed_expiry) := by
  obtain ⟨pid, product, hp, hdays, hce⟩ := normalize_one_product h
  have hd : 1 ≤ product.duration_days := hdur _ (dictGet_mem hp)
  constructor
  · intro e he
    rw [hce, he]
    rfl
  · intro hne
    have hval : txn.computed_expiry =
        txn.created_at + product.duration_days * 86400 := by
      rw [hce, hne]
      rfl
    rw [hval, hdays]
    exact ⟨rfl, by omega⟩

/-- Witness for the amended claim C2: `rawW` has no source expiry, so the
normalized transaction's computed_expiry is created_at + 30 days. -/
theorem computed_expiry_source_passthrough_witness :
    txnW.computed_expiry = txnW.created_at + txnW.duration_days * 86400 ∧
    txnW.created_at < txnW.computed_expiry :=
  (computed_expiry_source_passthrough settingsW rawW txnW (by decide)
    (by decide)).2 rfl

/-- Helper: registering a fresh id appends it and keeps the most recent
500 entries of the appended list. -/
theorem register_processed_fresh (m : MasterData) (tid : String)
    (h : tid ∉ m.processed_transactions) :
    (register_processed m tid).processed_transactions =
      (m.processed_transactions ++ [tid]).drop
        ((m.processed_transactions ++ [tid]).length - 500) := by
  simp only [register_processed, if_neg h]
  split
  · rfl
  · next hle =>
      have h0 : (m.processed_transactions ++ [tid]).length - 500 = 0 := by
        omega
      rw [h0, List.drop_zero]

/-- Helper: after registering a fresh id the processed list is within the
500-entry cap. -/
theorem register_processed_fresh_cap (m : MasterData) (tid : String)
    (h : tid ∉ m.processed_transactions) :
    (register_processed m tid).processed_transactions.length ≤ 500 := by
  rw [register_processed_fresh m tid h]
  simp only [List.length_drop, List.length_append, List.length_cons,
    List.length_nil]
  omega

/-- Helper: every id in the processed list after a registration was either
already present or is the registered id. -/
theorem register_processed_mem (m : MasterData) (tid x : String)
    (hx : x ∈ (register_processed m tid).processed_transactions) :
    x ∈ m.processed_transactions ∨ x = tid := by
  by_cases h : tid ∈ m.processed_transactions
  · simp only [register_processed, if_pos h] at hx
    exact Or.inl hx
  · rw [register_processed_fresh m tid h] at hx
    have := List.drop_subset _ _ hx
    rcases List.mem_append.mp this with h1 | h2
    · exact Or.inl h1
    · simp only [List.mem_singleton] at h2
      exact Or.inr h2

/-- Helper: folding register_processed over fresh, pairwise-distinct ids,
starting within the cap, keeps exactly the most recent 500 entries of the
combined list. -/
theorem foldl_register_processed (ids : List String) (m : MasterData)
    (hno : ids.Nodup)
    (hfresh : ∀ tid ∈ ids, tid ∉ m.processed_transactions)
    (hcap : m.processed_transactions.length ≤ 500) :
    (ids.foldl register_processed m).processed_transactions =
      (m.processed_transactions ++ ids).drop
        ((m.processed_transactions ++ ids).length - 500) := by
  induction ids generalizing m with
  | nil =>
      simp only [List.foldl_nil, List.append_nil]
      have h0 : m.processed_transactions.length - 500 = 0 := by omega
      rw [h0, List.drop_zero]
  | cons id rest ih =>
      obtain ⟨hid, hnor⟩ := List.nodup_cons.mp hno
      have hidm : id ∉ m.processed_transactions :=
        hfresh id (List.mem_cons_self _ _)
      have h1 := register_processed_fresh m id hidm
      have hcap1 := register_processed_fresh_cap m id hidm
      have hfresh1 : ∀ tid ∈ rest,
          tid ∉ (register_processed m id).processed_transactions := by
        intro tid htid hmem
        rcases register_processed_mem m id tid hmem with h2 | h2
        · exact hfresh tid (List.mem_cons_of_mem _ htid) h2
        · exact hid (h2 ▸ htid)
      have ihr := ih (register_processed m id) hnor hfresh1 hcap1
      rw [List.foldl_cons, ihr, h1]
      have hk : (m.processed_transactions ++ [id]).length - 500
          ≤ (m.processed_transactions ++ [id]).length := by omega
      rw [← List.drop_append_of_le_length hk, List.drop_drop]
      have hsplit : m.processed_transactions ++ id :: rest
          = (m.processed_transactions ++ [id]) ++ rest := by simp
      rw [hsplit]
      have harith : ∀ a b : ℕ, a = b →
          List.drop a ((m.processed_transactions ++ [id]) ++ rest) =
            List.drop b ((m.processed_transactions ++ [id]) ++ rest) :=
        fun a b hab => by rw [hab]
      apply harith
      simp only [List.length_drop, List.length_append, List.length_cons,
        List.length_nil]
      omega

/-- Claim C7: register_processed appends an id only if absent (present ids
are no-ops), and after more than 500 registrations of distinct,
previously unregistered ids the processed list holds exactly the 500 most
recently registered ids in registration order (oldest evicted first). -/
theorem register_processed_bound (m : MasterData) (ids : List String)
    (hno : ids.Nodup)
    (hfresh : ∀ tid ∈ ids, tid ∉ m.processed_transactions)
    (hlen : 500 < ids.length) :
    (∀ tid ∈ m.processed_transactions, register_processed m tid = m) ∧
    (ids.foldl register_processed m).processed_transactions =
      ids.drop (ids.length - 500) := by
  constructor
  · intro tid htid
    simp [register_processed, htid]
  · rcases ids with _ | ⟨id, rest⟩
    · simp at hlen
    · obtain ⟨hid, hnor⟩ := List.nodup_cons.mp hno
      have hidm : id ∉ m.processed_transactions :=
        hfresh id (List.mem_cons_self _ _)
      have hcap1 := register_processed_fresh_cap m id hidm
      have hfresh1 : ∀ tid ∈ rest,
          tid ∉ (register_processed m id).processed_transactions := by
        intro tid htid hmem
        rcases register_processed_mem m id tid hmem with h2 | h2
        · exact hfresh tid (List.mem_cons_of_mem _ htid) h2
        · exact hid (h2 ▸ htid)
      have hfold :=
        foldl_register_processed rest (register_processed m id) hnor
          hfresh1 hcap1
      rw [List.foldl_cons, hfold]
      have hrest : 500 ≤ rest.length := by
        simp only [List.length_cons] at hlen
        omega
      set p := (register_processed m id).processed_transactions with hp
      have hamount : (p ++ rest).length - 500
          = p.length + (rest.length - 500) := by
        simp only [List.length_append]
        omega
      rw [hamount, List.drop_append]
      have hlen2 : (id :: rest).length - 500 = (rest.length - 500) + 1 := by
        simp only [List.length_cons]
        omega
      rw [hlen2, List.drop_succ_cons]

/-- Helper: the 501 witness ids are pairwise distinct. -/
theorem witnessIds_nodup : witnessIds.Nodup := by
  refine List.Nodup.map ?_ (List.nodup_range 501)
  intro a b hab
  have h := congrArg (fun s => s.data.length) hab
  simpa using h

/-- Witness for claim C7: 501 distinct fresh ids registered into an empty
ledger leave exactly the most recent 500. -/
theorem register_processed_bound_witness :
    (∀ tid ∈ (emptyMaster "S1").processed_transactions,
        register_processed (emptyMaster "S1") tid = emptyMaster "S1") ∧
    (witnessIds.foldl register_processed
        (emptyMaster "S1")).processed_transactions =
      witnessIds.drop (witnessIds.length - 500) :=
  register_processed_bound (emptyMaster "S1") witnessIds witnessIds_nodup
    (by
      intro tid _ hmem
      exact absurd hmem (List.not_mem_nil tid))
    (by simp [witnessIds])

/-- Helper: lookup after assignment at the same key. -/
theorem dictGet_dictSet_self {α : Type} (d : List (String × α)) (k : String)
    (v : α) : dictGet (dictSet d k v) k = some v := by
  induction d with
  | nil => simp [dictGet, dictSet]
  | cons kv rest ih =>
      obtain ⟨k1, v1⟩ := kv
      by_cases hk : k1 = k
      · simp [dictGet, dictSet, hk]
      · simp [dictGet, dictSet, hk, ih]

/-- Helper: lookup after assignment at a different key. -/
theorem dictGet_dictSet_ne {α : Type} (d : List (String × α))
    (k k' : String) (v : α) (h : k' ≠ k) :
    dictGet (dictSet d k v) k' = dictGet d k' := by
  induction d with
  | nil =>
      have hne : ¬ (k = k') := fun he => h he.symm
      simp [dictGet, dictSet, hne]
  | cons kv rest ih =>
      obtain ⟨k1, v1⟩ := kv
      by_cases hk : k1 = k
      · subst hk
        have hne : ¬ (k1 = k') := fun he => h he.symm
        simp [dictGet, dictSet, hne]
      · simp only [dictSet, if_neg hk]
        by_cases hk2 : k1 = k'
        · simp [dictGet, hk2]
        · simp [dictGet, hk2, ih]

/-- Helper: bump_latest leaves the bumped key at least as large as the
bumped value. -/
theorem bump_latest_self (latest : List (String × Int)) (sid : String)
    (t : Int) :
    ∃ v, dictGet (bump_latest latest sid t) sid = some v ∧ t ≤ v := by
  unfold bump_latest
  split
  · exact ⟨t, dictGet_dictSet_self _ _ _, le_refl t⟩
  · next cur hcur =>
      split
      · exact ⟨t, dictGet_dictSet_self _ _ _, le_refl t⟩
      · next hle => exact ⟨cur, hcur, by omega⟩

/-- Helper: bump_latest never decreases any recorded value. -/
theorem bump_latest_mono (latest : List (String × Int)) (sid k : String)
    (t v : Int) (h : dictGet latest k = some v) :
    ∃ v', dictGet (bump_latest latest sid t) k = some v' ∧ v ≤ v' := by
  unfold bump_latest
  split
  · next hnone =>
      by_cases hk : k = sid
      · subst hk
        rw [h] at hnone
        cases hnone
      · rw [dictGet_dictSet_ne _ _ _ _ hk]
        exact ⟨v, h, le_refl v⟩
  · next cur hcur =>
      split
      · next hgt =>
          by_cases hk : k = sid
          · subst hk
            rw [h] at hcur
            injection hcur with hcur
            subst hcur
            exact ⟨t, dictGet_dictSet_self _ _ _, by omega⟩
          · rw [dictGet_dictSet_ne _ _ _ _ hk]
            exact ⟨v, h, le_refl v⟩
      · exact ⟨v, h, le_refl v⟩

/-- Helper: register_processed does not touch the watermark. -/
theorem register_processed_lp (m : MasterData) (tid : String) :
    (register_processed m tid).last_processed_at = m.last_processed_at := by
  unfold register_processed
  split <;> rfl

/-- Helper: record_user does not touch the watermark. -/
theorem record_user_lp (m : MasterData) (u : String) (r : AccessRecord) :
    (record_user m u r).last_processed_at = m.last_processed_at :=
  rfl

/-- Helper: record_retry does not touch the watermark. -/
theorem record_retry_lp (m : MasterData) (e : RetryEntry) :
    (record_retry m e).last_processed_at = m.last_processed_at :=
  rfl

/-- Helper: record_manual_review does not touch the watermark. -/
theorem record_manual_review_lp (m : MasterData) (e : ManualReviewEntry) :
    (record_manual_review m e).last_processed_at = m.last_processed_at :=
  rfl

/-- Helper: get_master leaves the requested ledger in the cache. -/
theorem get_master_self (env : SyncEnv) (cache : List (String × MasterData))
    (sid : String) :
    dictGet (get_master env cache sid).2 sid =
      some (get_master env cache sid).1 := by
  unfold get_master
  split
  · next h => exact h
  · exact dictGet_dictSet_self _ _ _

/-- Helper: get_master only adds the loaded ledger to the cache. -/
theorem get_master_get (env : SyncEnv) (cache : List (String × MasterData))
    (sid k : String) :
    dictGet (get_master env cache sid).2 k = dictGet cache k ∨
    (k = sid ∧
      dictGet (get_master env cache sid).2 k = some (load_master env sid)) := by
  unfold get_master
  split
  · exact Or.inl rfl
  · by_cases hk : k = sid
    · subst hk
      exact Or.inr ⟨rfl, dictGet_dictSet_self _ _ _⟩
    · exact Or.inl (dictGet_dictSet_ne _ _ _ _ hk)

/-- Helper: the loop body never touches latest_seen. -/
theorem processBody_latest (settings : Settings) (env : SyncEnv)
    (st : SyncState) (master : MasterData) (i : Nat)
    (txn : NormalizedTransaction) :
    (processBody settings env st master i txn).latest_seen =
      st.latest_seen := by
  simp only [processBody]
  repeat' split
  all_goals rfl

/-- Helper: the loop body either leaves the ledger cache alone or stores,
under the transaction's script id, a ledger with the same watermark as the
one it was given. -/
theorem processBody_cache (settings : Settings) (env : SyncEnv)
    (st : SyncState) (master : MasterData) (i : Nat)
    (txn : NormalizedTransaction) :
    (processBody settings env st master i txn).master_cache =
        st.master_cache ∨
    ∃ m2,
      (processBody settings env st master i txn).master_cache =
        dictSet st.master_cache txn.script_id m2 ∧
      m2.last_processed_at = master.last_processed_at := by
  simp only [processBody]
  repeat' split
  all_goals
    first
      | exact Or.inl rfl
      | exact Or.inr ⟨_, rfl, by
          simp [register_processed_lp, record_user_lp, record_retry_lp,
            record_manual_review_lp]⟩

/-- Helper: one loop iteration bumps latest_seen at the transaction's
script id and otherwise either keeps the post-get_master cache or stores
a ledger with the watermark of the resolved one. -/
theorem processTxn_shape (settings : Settings) (env : SyncEnv)
    (st : SyncState) (i : Nat) (txn : NormalizedTransaction) :
    (processTxn settings env st i txn).latest_seen =
      bump_latest st.latest_seen txn.script_id txn.created_at ∧
    ((processTxn settings env st i txn).master_cache =
        (get_master env st.master_cache txn.script_id).2 ∨
      ∃ m2,
        (processTxn settings env st i txn).master_cache =
          dictSet (get_master env st.master_cache txn.script_id).2
            txn.script_id m2 ∧
        m2.last_processed_at =
          (get_master env st.master_cache
            txn.script_id).1.last_processed_at) :=
  ⟨processBody_latest settings env _ _ i txn,
   processBody_cache settings env _ _ i txn⟩

/-- Helper: get_master preserves the watermark-matches-disk invariant. -/
theorem cache_lp_invariant_get_master (env : SyncEnv)
    (cache : List (String × MasterData)) (sid : String)
    (h : cache_lp_invariant env cache) :
    cache_lp_invariant env (get_master env cache sid).2 := by
  intro k m hk
  rcases get_master_get env cache sid k with hg | ⟨hks, hg⟩
  · exact h k m (hg ▸ hk)
  · subst hks
    rw [hg] at hk
    injection hk with hk
    subst hk
    rfl

/-- Helper: one loop iteration preserves the watermark-matches-disk
invariant. -/
theorem processTxn_lp_invariant (settings : Settings) (env : SyncEnv)
    (st : SyncState) (i : Nat) (txn : NormalizedTransaction)
    (h : cache_lp_invariant env st.master_cache) :
    cache_lp_invariant env
      (processTxn settings env st i txn).master_cache := by
  have hinv2 := cache_lp_invariant_get_master env st.master_cache
    txn.script_id h
  have hmlp := hinv2 _ _ (get_master_self env st.master_cache txn.script_id)
  rcases (processTxn_shape settings env st i txn).2 with hc | ⟨m2, hc, hm2⟩
  · rw [hc]
    exact hinv2
  · rw [hc]
    intro k m hk
    by_cases hks : k = txn.script_id
    · subst hks
      rw [dictGet_dictSet_self] at hk
      injection hk with hk
      subst hk
      rw [hm2, hmlp]
    · rw [dictGet_dictSet_ne _ _ _ _ hks] at hk
      exact hinv2 k m hk

/-- Helper: one loop iteration keeps every present cache key present. -/
theorem processTxn_cache_some (settings : Settings) (env : SyncEnv)
    (st : SyncState) (i : Nat) (txn : NormalizedTransaction)
    (k : String) (v : MasterData)
    (h : dictGet st.master_cache k = some v) :
    ∃ v', dictGet (processTxn settings env st i txn).master_cache k
      = some v' := by
  have hg : ∃ w,
      dictGet (get_master env st.master_cache txn.script_id).2 k
        = some w := by
    rcases get_master_get env st.master_cache txn.script_id k with
      hgg | ⟨_, hgg⟩
    · exact ⟨v, hgg ▸ h⟩
    · exact ⟨_, hgg⟩
  obtain ⟨w, hw⟩ := hg
  rcases (processTxn_shape settings env st i txn).2 with hc | ⟨m2, hc, _⟩
  · rw [hc]
    exact ⟨w, hw⟩
  · rw [hc]
    by_cases hks : k = txn.script_id
    · subst hks
      exact ⟨m2, dictGet_dictSet_self _ _ _⟩
    · rw [dictGet_dictSet_ne _ _ _ _ hks]
      exact ⟨w, hw⟩

/-- Helper: after one loop iteration the transaction's own script id is
cached. -/
theorem processTxn_cache_self (settings : Settings) (env : SyncEnv)
    (st : SyncState) (i : Nat) (txn : NormalizedTransaction) :
    ∃ m, dictGet (processTxn settings env st i txn).master_cache
      txn.script_id = some m := by
  rcases (processTxn_shape settings env st i txn).2 with hc | ⟨m2, hc, _⟩
  · rw [hc]
    exact ⟨_, get_master_self _ _ _⟩
  · rw [hc]
    exact ⟨m2, dictGet_dictSet_self _ _ _⟩

/-- Helper: one loop iteration never lowers a latest_seen value. -/
theorem processTxn_latest_mono (settings : Settings) (env : SyncEnv)
    (st : SyncState) (i : Nat) (txn : NormalizedTransaction)
    (k : String) (v : Int) (h : dictGet st.latest_seen k = some v) :
    ∃ v', dictGet (processTxn settings env st i txn).latest_seen k
        = some v' ∧ v ≤ v' := by
  rw [(processTxn_shape settings env st i txn).1]
  exact bump_latest_mono _ _ _ _ _ h

/-- Helper: one loop iteration records at least the transaction's
created_at for its script id. -/
theorem processTxn_latest_self (settings : Settings) (env : SyncEnv)
    (st : SyncState) (i : Nat) (txn : NormalizedTransaction) :
    ∃ v, dictGet (processTxn settings env st i txn).latest_seen
        txn.script_id = some v ∧ txn.created_at ≤ v := by
  rw [(processTxn_shape settings env st i txn).1]
  exact bump_latest_self _ _ _

/-- Helper: the whole loop never lowers a latest_seen value. -/
theorem foldl_latest_mono (settings : Settings) (env : SyncEnv)
    (l : List (Nat × NormalizedTransaction)) (st : SyncState)
    (k : String) (v : Int) (h : dictGet st.latest_seen k = some v) :
    ∃ v',
      dictGet ((l.foldl
          (fun st p => processTxn settings env st p.1 p.2)
          st).latest_seen) k = some v' ∧ v ≤ v' := by
  induction l generalizing st v with
  | nil => exact ⟨v, h, le_refl v⟩
  | cons p rest ih =>
      obtain ⟨v1, h1, hv1⟩ :=
        processTxn_latest_mono settings env st p.1 p.2 k v h
      obtain ⟨v2, h2, hv2⟩ := ih _ _ h1
      exact ⟨v2, h2, le_trans hv1 hv2⟩

/-- Helper: after the loop, latest_seen dominates every transaction's
created_at at its script id. -/
theorem foldl_latest_dominates (settings : Settings) (env : SyncEnv)
    (l : List (Nat × NormalizedTransaction)) (st : SyncState) :
    ∀ p ∈ l,
      ∃ v,
        dictGet ((l.foldl
            (fun st p => processTxn settings env st p.1 p.2)
            st).latest_seen) p.2.script_id = some v ∧
        p.2.created_at ≤ v := by
  induction l generalizing st with
  | nil =>
      intro p hp
      cases hp
  | cons q rest ih =>
      intro p hp
      rcases List.mem_cons.mp hp with hq | hp2
      · subst hq
        rw [List.foldl_cons]
        obtain ⟨v1, h1, hv1⟩ :=
          processTxn_latest_self settings env st p.1 p.2
        obtain ⟨v2, h2, hv2⟩ :=
          foldl_latest_mono settings env rest _ _ _ h1
        exact ⟨v2, h2, le_trans hv1 hv2⟩
      · rw [List.foldl_cons]
        exact ih _ p hp2

/-- Helper: the whole loop keeps every present cache key present. -/
theorem foldl_cache_some (settings : Settings) (env : SyncEnv)
    (l : List (Nat × NormalizedTransaction)) (st : SyncState)
    (k : String) (v : MasterData)
    (h : dictGet st.master_cache k = some v) :
    ∃ v',
      dictGet ((l.foldl
          (fun st p => processTxn settings env st p.1 p.2)
          st).master_cache) k = some v' := by
  induction l generalizing st v with
  | nil => exact ⟨v, h⟩
  | cons p rest ih =>
      obtain ⟨v1, h1⟩ := processTxn_cache_some settings env st p.1 p.2 k v h
      exact ih _ _ h1

/-- Helper: after the loop, every processed transaction's script id is
cached. -/
theorem foldl_cache_all (settings : Settings) (env : SyncEnv)
    (l : List (Nat × NormalizedTransaction)) (st : SyncState) :
    ∀ p ∈ l,
      ∃ m,
        dictGet ((l.foldl
            (fun st p => processTxn settings env st p.1 p.2)
            st).master_cache) p.2.script_id = some m := by
  induction l generalizing st with
  | nil =>
      intro p hp
      cases hp
  | cons q rest ih =>
      intro p hp
      rcases List.mem_cons.mp hp with hq | hp2
      · subst hq
        rw [List.foldl_cons]
        obtain ⟨m1, h1⟩ := processTxn_cache_self settings env st p.1 p.2
        exact foldl_cache_some settings env rest _ _ _ h1
      · rw [List.foldl_cons]
        exact ih _ p hp2

/-- Helper: the whole loop preserves the watermark-matches-disk
invariant. -/
theorem foldl_lp_invariant (settings : Settings) (env : SyncEnv)
    (l : List (Nat × NormalizedTransaction)) (st : SyncState)
    (h : cache_lp_invariant env st.master_cache) :
    cache_lp_invariant env
      ((l.foldl (fun st p => processTxn settings env st p.1 p.2)
          st).master_cache) := by
  induction l generalizing st with
  | nil => exact h
  | cons p rest ih =>
      rw [List.foldl_cons]
      exact ih _ (processTxn_lp_invariant settings env st p.1 p.2 h)

/-- Helper: looking up a cache built by loading each id returns the loaded
ledger. -/
theorem dictGet_map_load (env : SyncEnv) (ids : List String) (k : String)
    (m : MasterData)
    (h : dictGet (ids.map (fun sid => (sid, load_master env sid))) k
      = some m) :
    m = load_master env k := by
  induction ids with
  | nil => simp [dictGet] at h
  | cons id rest ih =>
      simp only [List.map_cons, dictGet] at h
      by_cases hk : id = k
      · rw [if_pos hk] at h
        injection h with h
        subst hk
        exact h.symm
      · rw [if_neg hk] at h
        exact ih h

/-- Helper: the initial cache satisfies the watermark-matches-disk
invariant. -/
theorem initial_cache_lp_invariant (settings : Settings) (env : SyncEnv) :
    cache_lp_invariant env (initial_cache settings env) := by
  intro sid m h
  rw [dictGet_map_load env (script_ids settings) sid m h]

/-- Helper: lookup in the watermark-updated cache. -/
theorem dictGet_update_watermarks (cache : List (String × MasterData))
    (latest : List (String × Int)) (k : String) :
    dictGet (update_watermarks cache latest) k =
      (dictGet cache k).map (wm_update latest k) := by
  induction cache with
  | nil => rfl
  | cons e rest ih =>
      obtain ⟨k1, m1⟩ := e
      by_cases hk : k1 = k
      · subst hk
        simp [update_watermarks, dictGet]
      · simp only [update_watermarks, List.map_cons, dictGet, if_neg hk]
        exact ih

/-- Helper: the watermark update raises last_processed_at at least to the
recorded candidate. -/
theorem wm_update_ge_candidate (latest : List (String × Int))
    (sid : String) (m : MasterData) (v : Int)
    (h : dictGet latest sid = some v) :
    ∃ lp, (wm_update latest sid m).last_processed_at = some lp ∧
      v ≤ lp := by
  simp only [wm_update, h]
  split
  · exact ⟨v, rfl, le_refl v⟩
  · next lp hlp =>
      split
      · next hgt => exact ⟨v, rfl, le_refl v⟩
      · next hng => exact ⟨lp, hlp, by omega⟩

/-- Helper: the watermark update never lowers last_processed_at. -/
theorem wm_update_ge_old (latest : List (String × Int)) (sid : String)
    (m : MasterData) (lp0 : Int) (h : m.last_processed_at = some lp0) :
    ∃ lp, (wm_update latest sid m).last_processed_at = some lp ∧
      lp0 ≤ lp := by
  simp only [wm_update]
  split
  · exact ⟨lp0, h, le_refl lp0⟩
  · next candidate hcand =>
      simp only [h]
      split
      · next hgt => exact ⟨candidate, rfl, by omega⟩
      · next hng => exact ⟨lp0, h, le_refl lp0⟩

/-- Helper: every list member appears in the enumeration with some index. -/
theorem exists_mem_enum {α : Type} {l : List α} {x : α} (hx : x ∈ l) :
    ∃ i, (i, x) ∈ l.enum := by
  have h : x ∈ l.enum.map Prod.snd := by
    rw [List.enum_map_snd]
    exact hx
  obtain ⟨p, hp, he⟩ := List.mem_map.mp h
  refine ⟨p.1, ?_⟩
  have hpx : (p.1, x) = p := Prod.ext rfl he.symm
  rwa [hpx]

/-- Claim C6: after one run_sync pass, every ledger cached for a normalized
transaction's script carries a last_processed_at at least that
transaction's created_at, and no persisted ledger's last_processed_at is
below the value it was loaded with before the pass. -/
theorem run_sync_watermark_monotone (settings : Settings) (env : SyncEnv)
    (raws : List RawRecord) (txn : NormalizedTransaction)
    (hmem : txn ∈ normalize_transactions raws settings) :
    (∃ m,
      dictGet (run_sync settings env raws).master_cache txn.script_id
        = some m ∧
      ∃ lp, m.last_processed_at = some lp ∧ txn.created_at ≤ lp) ∧
    (∀ sid m,
      dictGet (run_sync settings env raws).master_cache sid = some m →
      ∀ lp0, (load_master env sid).last_processed_at = some lp0 →
      ∃ lp, m.last_processed_at = some lp ∧ lp0 ≤ lp) := by
  obtain ⟨i, hienum⟩ := exists_mem_enum hmem
  set st0 : SyncState :=
    { master_cache := initial_cache settings env
      latest_seen := []
      summary := summary0
      calls := [] } with hst0
  set l := (normalize_transactions raws settings).enum with hl
  set stN :=
    List.foldl (fun st p => processTxn settings env st p.1 p.2) st0 l
    with hstN
  have hrun : (run_sync settings env raws).master_cache =
      update_watermarks stN.master_cache stN.latest_seen := rfl
  constructor
  · obtain ⟨m0, hm0⟩ := foldl_cache_all settings env l st0 (i, txn) hienum
    obtain ⟨v, hv, hcv⟩ :=
      foldl_latest_dominates settings env l st0 (i, txn) hienum
    have hm0' : dictGet stN.master_cache txn.script_id = some m0 := hm0
    have hv' : dictGet stN.latest_seen txn.script_id = some v := hv
    have hcv' : txn.created_at ≤ v := hcv
    refine ⟨wm_update stN.latest_seen txn.script_id m0, ?_, ?_⟩
    · rw [hrun, dictGet_update_watermarks, hm0']
      rfl
    · obtain ⟨lp, hlp, hvlp⟩ :=
        wm_update_ge_candidate stN.latest_seen txn.script_id m0 v hv'
      exact ⟨lp, hlp, le_trans hcv' hvlp⟩
  · intro sid m hm lp0 hlp0
    have hinv : cache_lp_invariant env stN.master_cache :=
      foldl_lp_invariant settings env l st0
        (initial_cache_lp_invariant settings env)
    rw [hrun, dictGet_update_watermarks] at hm
    rcases hg : dictGet stN.master_cache sid with _ | m0
    · rw [hg] at hm
      cases hm
    · rw [hg] at hm
      injection hm with hm
      have hm0lp : m0.last_processed_at = some lp0 := by
        rw [hinv sid m0 hg, hlp0]
      obtain ⟨lp, hlp, hge⟩ :=
        wm_update_ge_old stN.latest_seen sid m0 lp0 hm0lp
      rw [← hm]
      exact ⟨lp, hlp, hge⟩

/-- Witness for claim C6: one concrete pass over a single transaction. -/
theorem run_sync_watermark_monotone_witness :
    (∃ m,
      dictGet (run_sync settingsW envW [rawW]).master_cache txnW.script_id
        = some m ∧
      ∃ lp, m.last_processed_at = some lp ∧ txnW.created_at ≤ lp) ∧
    (∀ sid m,
      dictGet (run_sync settingsW envW [rawW]).master_cache sid = some m →
      ∀ lp0, (load_master envW sid).last_processed_at = some lp0 →
      ∃ lp, m.last_processed_at = some lp ∧ lp0 ≤ lp) :=
  run_sync_watermark_monotone settingsW envW [rawW] txnW (by decide)

/-- Helper: with the ledger already cached, one loop iteration is the body
applied to the bumped state. -/
theorem processTxn_cached (settings : Settings) (env : SyncEnv)
    (st : SyncState) (i : Nat) (txn : NormalizedTransaction)
    (master : MasterData)
    (hcache : dictGet st.master_cache txn.script_id = some master) :
    processTxn settings env st i txn =
      processBody settings env
        { st with latest_seen :=
            bump_latest st.latest_seen txn.script_id txn.created_at }
        master i txn := by
  have hgm : get_master env st.master_cache txn.script_id =
      (master, st.master_cache) := by
    unfold get_master
    rw [hcache]
  unfold processTxn
  rw [hgm]

/-- Helper: evaluation of the loop body on a grant-type action whose grant
call fails in a non-dry-run pass. -/
theorem processBody_grant_fail (settings : Settings) (env : SyncEnv)
    (st : SyncState) (master : MasterData) (i : Nat)
    (txn : NormalizedTransaction) (vres : ValidationResult) (e : Int)
    (msg : String)
    (hdry : settings.dry_run = false)
    (hproc : txn.transaction_id ∉ master.processed_transactions)
    (htype :
      (derive_action txn (dictGet master.users txn.username)).type
        = "grant_new" ∨
      (derive_action txn (dictGet master.users txn.username)).type
        = "stack_existing")
    (hexp : (derive_action txn (dictGet master.users txn.username)).expires_at
      = some e)
    (hval : env.validate i = Except.ok vres)
    (hvalid : vres.validUser = true)
    (hgrant : env.grant i = Except.error msg) :
    processBody settings env st master i txn =
      { st with
        summary := { st.summary with failed := st.summary.failed + 1 }
        calls := st.calls ++
          [ExternalCall.validateCall txn.username,
           ExternalCall.grantCall (grant_payload txn e
             ((pyOrS vres.verifiedUserName (some txn.username)).getD
               txn.username))]
        master_cache := dictSet st.master_cache txn.script_id
          (record_retry master
            { transaction_id := txn.transaction_id
              payload := grant_payload txn e
                ((pyOrS vres.verifiedUserName (some txn.username)).getD
                  txn.username)
              error_message := msg
              attempts := 0
              next_attempt_at := env.now i }) } := by
  have hskip :
      ¬ (derive_action txn (dictGet master.users txn.username)).type
        = "skip" := by
    rcases htype with h | h <;> simp [h]
  have hmr :
      ¬ (derive_action txn (dictGet master.users txn.username)).type
        = "manual_review" := by
    rcases htype with h | h <;> simp [h]
  simp [processBody, hproc, hskip, hmr, hexp, hval, hvalid, hdry, hgrant]

/-- Helper: evaluation of the loop body on a grant-type action with a
valid username in a dry-run pass: only the validation call happens and
only the dry_run_skipped counter changes. -/
theorem processBody_dry_run_valid (settings : Settings) (env : SyncEnv)
    (st : SyncState) (master : MasterData) (i : Nat)
    (txn : NormalizedTransaction) (vres : ValidationResult) (e : Int)
    (hdry : settings.dry_run = true)
    (hproc : txn.transaction_id ∉ master.processed_transactions)
    (htype :
      (derive_action txn (dictGet master.users txn.username)).type
        = "grant_new" ∨
      (derive_action txn (dictGet master.users txn.username)).type
        = "stack_existing")
    (hexp : (derive_action txn (dictGet master.users txn.username)).expires_at
      = some e)
    (hval : env.validate i = Except.ok vres)
    (hvalid : vres.validUser = true) :
    processBody settings env st master i txn =
      { st with
        summary := { st.summary with
          dry_run_skipped := st.summary.dry_run_skipped + 1 }
        calls := st.calls ++ [ExternalCall.validateCall txn.username] } := by
  have hskip :
      ¬ (derive_action txn (dictGet master.users txn.username)).type
        = "skip" := by
    rcases htype with h | h <;> simp [h]
  have hmr :
      ¬ (derive_action txn (dictGet master.users txn.username)).type
        = "manual_review" := by
    rcases htype with h | h <;> simp [h]
  simp [processBody, hproc, hskip, hmr, hexp, hval, hvalid, hdry]

/-- Helper: in a dry-run pass the loop body never adds a grant call to the
trace. -/
theorem processBody_no_new_grant (settings : Settings) (env : SyncEnv)
    (st : SyncState) (master : MasterData) (i : Nat)
    (txn : NormalizedTransaction)
    (hdry : settings.dry_run = true) (p : GrantPayload)
    (hp : ExternalCall.grantCall p ∈
      (processBody settings env st master i txn).calls) :
    ExternalCall.grantCall p ∈ st.calls := by
  simp only [processBody] at hp
  repeat' split at hp
  all_goals simp_all

/-- Helper: in a dry-run pass the whole loop never adds a grant call to
the trace. -/
theorem foldl_no_new_grant (settings : Settings) (env : SyncEnv)
    (l : List (Nat × NormalizedTransaction)) (st : SyncState)
    (hdry : settings.dry_run = true) (p : GrantPayload)
    (hp : ExternalCall.grantCall p ∈
      ((l.foldl (fun st q => processTxn settings env st q.1 q.2)
          st).calls)) :
    ExternalCall.grantCall p ∈ st.calls := by
  induction l generalizing st with
  | nil => exact hp
  | cons q rest ih =>
      rw [List.foldl_cons] at hp
      have h1 : ExternalCall.grantCall p ∈
          (processTxn settings env st q.1 q.2).calls := ih _ hp
      have h2 := processBody_no_new_grant settings env
        { st with
          master_cache := (get_master env st.master_cache q.2.script_id).2
          latest_seen :=
            bump_latest st.latest_seen q.2.script_id q.2.created_at }
        (get_master env st.master_cache q.2.script_id).1 q.1 q.2 hdry p h1
      exact h2

/-- Claim C8: when the grant call for a grant_new/stack_existing action
fails in a non-dry-run pass, run_sync's loop appends a retry entry
carrying exactly the failed call's payload (`_grant_payload` of the
action's expiry and the effective username) and the error message, counts
one more failure, does not register the transaction as processed, leaves
the users mapping unchanged, and moves on (other counters untouched). -/
theorem run_sync_grant_failure_retry (settings : Settings) (env : SyncEnv)
    (st : SyncState) (i : Nat) (txn : NormalizedTransaction)
    (master : MasterData) (vres : ValidationResult) (e : Int)
    (msg : String)
    (hdry : settings.dry_run = false)
    (hcache : dictGet st.master_cache txn.script_id = some master)
    (hproc : txn.transaction_id ∉ master.processed_transactions)
    (htype :
      (derive_action txn (dictGet master.users txn.username)).type
        = "grant_new" ∨
      (derive_action txn (dictGet master.users txn.username)).type
        = "stack_existing")
    (hexp : (derive_action txn (dictGet master.users txn.username)).expires_at
      = some e)
    (hval : env.validate i = Except.ok vres)
    (hvalid : vres.validUser = true)
    (hgrant : env.grant i = Except.error msg) :
    ∃ m2,
      dictGet (processTxn settings env st i txn).master_cache
        txn.script_id = some m2 ∧
      m2.retry_queue = master.retry_queue ++
        [{ transaction_id := txn.transaction_id
           payload := grant_payload txn e
             ((pyOrS vres.verifiedUserName (some txn.username)).getD
               txn.username)
           error_message := msg
           attempts := 0
           next_attempt_at := env.now i }] ∧
      m2.processed_transactions = master.processed_transactions ∧
      m2.users = master.users ∧
      (processTxn settings env st i txn).summary.failed
        = st.summary.failed + 1 ∧
      (processTxn settings env st i txn).summary.processed
        = st.summary.processed ∧
      (processTxn settings env st i txn).summary.stacked
        = st.summary.stacked ∧
      (processTxn settings env st i txn).summary.skipped
        = st.summary.skipped ∧
      (processTxn settings env st i txn).summary.manual_review
        = st.summary.manual_review := by
  have hpt := processTxn_cached settings env st i txn master hcache
  have hbody := processBody_grant_fail settings env
    { st with latest_seen :=
        bump_latest st.latest_seen txn.script_id txn.created_at }
    master i txn vres e msg hdry hproc htype hexp hval hvalid hgrant
  rw [hpt, hbody]
  refine ⟨_, dictGet_dictSet_self _ _ _, rfl, rfl, rfl, rfl, rfl,
    rfl, rfl, rfl⟩

/-- Witness for claim C8: a concrete failing grant call enqueues a retry
entry carrying exactly that call's payload and leaves the ledger
untouched. -/
theorem run_sync_grant_failure_retry_witness :
    ∃ m2,
      dictGet (processTxn settingsW envGrantFail stW 0 txnW).master_cache
        txnW.script_id = some m2 ∧
      m2.retry_queue = (emptyMaster "S1").retry_queue ++
        [{ transaction_id := txnW.transaction_id
           payload := grant_payload txnW 2593000 "user1"
           error_message := "boom"
           attempts := 0
           next_attempt_at := envGrantFail.now 0 }] ∧
      m2.processed_transactions
        = (emptyMaster "S1").processed_transactions ∧
      m2.users = (emptyMaster "S1").users ∧
      (processTxn settingsW envGrantFail stW 0 txnW).summary.failed
        = stW.summary.failed + 1 ∧
      (processTxn settingsW envGrantFail stW 0 txnW).summary.processed
        = stW.summary.processed ∧
      (processTxn settingsW envGrantFail stW 0 txnW).summary.stacked
        = stW.summary.stacked ∧
      (processTxn settingsW envGrantFail stW 0 txnW).summary.skipped
        = stW.summary.skipped ∧
      (processTxn settingsW envGrantFail stW 0 txnW).summary.manual_review
        = stW.summary.manual_review :=
  run_sync_grant_failure_retry settingsW envGrantFail stW 0 txnW
    (emptyMaster "S1")
    { validUser := true, verifiedUserName := some "user1" } 2593000 "boom"
    rfl (by decide) (by decide) (Or.inl (by decide)) (by decide) rfl rfl
    rfl

/-- Claim C9 counterexample: in a concrete dry-run pass over one
grant-type transaction, run_sync still executes the external
identity-verification call (the trace is not empty), so dry-run does not
suppress all external calls. -/
theorem dry_run_still_validates_cex :
    settingsDry.dry_run = true ∧
    (run_sync settingsDry envW [rawW]).calls
      = [ExternalCall.validateCall "user1"] :=
  ⟨rfl, by decide⟩

/-- Claim C9 as amended: in dry-run mode run_sync executes no access-grant
calls, and a grant_new/stack_existing action whose username validates is
only logged — the ledger cache, counters other than dry_run_skipped, and
the trace beyond the validation call are unchanged.  The
identity-verification call itself is still executed. -/
theorem dry_run_no_grant_calls (settings : Settings) (env : SyncEnv)
    (raws : List RawRecord) (st : SyncState) (i : Nat)
    (txn : NormalizedTransaction) (master : MasterData)
    (vres : ValidationResult)
    (hdry : settings.dry_run = true)
    (hcache : dictGet st.master_cache txn.script_id = some master)
    (hproc : txn.transaction_id ∉ master.processed_transactions)
    (htype :
      (derive_action txn (dictGet master.users txn.username)).type
        = "grant_new" ∨
      (derive_action txn (dictGet master.users txn.username)).type
        = "stack_existing")
    (hval : env.validate i = Except.ok vres)
    (hvalid : vres.validUser = true) :
    (∀ p, ExternalCall.grantCall p ∉ (run_sync settings env raws).calls) ∧
    processTxn settings env st i txn =
      { st with
        latest_seen :=
          bump_latest st.latest_seen txn.script_id txn.created_at
        summary := { st.summary with
          dry_run_skipped := st.summary.dry_run_skipped + 1 }
        calls := st.calls ++ [ExternalCall.validateCall txn.username] } := by
  constructor
  · intro p hp
    have h0 := foldl_no_new_grant settings env
      (normalize_transactions raws settings).enum
      { master_cache := initial_cache settings env
        latest_seen := []
        summary := summary0
        calls := [] } hdry p hp
    exact absurd h0 (List.not_mem_nil _)
  · obtain ⟨e, hexp⟩ := Option.isSome_iff_exists.mp
      (derive_action_expires_at_isSome txn
        (dictGet master.users txn.username))
    rw [processTxn_cached settings env st i txn master hcache]
    exact processBody_dry_run_valid settings env _ master i txn vres e
      hdry hproc htype hexp hval hvalid

/-- Witness for the amended claim C9 at concrete dry-run inputs. -/
theorem dry_run_no_grant_calls_witness :
    (∀ p, ExternalCall.grantCall p
      ∉ (run_sync settingsDry envW [rawW]).calls) ∧
    processTxn settingsDry envW stW 0 txnW =
      { stW with
        latest_seen :=
          bump_latest stW.latest_seen txnW.script_id txnW.created_at
        summary := { stW.summary with
          dry_run_skipped := stW.summary.dry_run_skipped + 1 }
        calls := stW.calls
          ++ [ExternalCall.validateCall txnW.username] } :=
  dry_run_no_grant_calls settingsDry envW [rawW] stW 0 txnW
    (emptyMaster "S1")
    { validUser := true, verifiedUserName := some "user1" }
    rfl (by decide) (by decide) (Or.inl (by decide)) rfl rfl

end CamelTV
